import Mathlib

/-!
Verification development for the lipydomics identification engine.

The repository snapshot under inspection ships the package documentation
(API reference, interactive-module notes, database schema and build logs)
but not the Python bodies of `lipydomics/identification/__init__.py`,
`lipydomics/identification/rt_calibration.py` or `lipydomics/data.py`.
Every definition below is therefore modelled from the specification
(spec.md) together with the behaviour the shipped documentation records,
as indicated in each doc comment.  Floating-point values are modelled as
rationals.
-/

namespace Lipydomics

/-- Modelled from the spec: a Feature is one analyte row with `mz`, and
optional `rt` and `ccs` (spec section 3); the missing Python class lives in
`lipydomics/data.py` which is absent from the snapshot. -/
structure Feature where
  mz : ℚ
  rt : Option ℚ
  ccs : Option ℚ
deriving Repr, DecidableEq

/-- Modelled from the spec: the two reference-record families, measured
and theoretical (spec section 3, `ReferenceRecord` variant). -/
inductive RecordFamily
  | measured
  | theoretical
deriving Repr, DecidableEq

/-- Modelled from the spec: a lipid descriptor (class, carbon count,
unsaturation, fatty-acid modifier, adduct), the fixed identifier
vocabulary of spec section 1. -/
structure LipidDescriptor where
  lipid_class : String
  carbon_number : Nat
  unsaturation : Nat
  fa_modifier : Option String
  adduct : String
deriving Repr, DecidableEq

/-- Modelled from the spec: one reference-database entry (spec section 3
and the shipped `lipids_schema.sql`): common descriptor fields plus `mz`;
`ccs` is the measured ccs for measured records and the stored predicted
ccs (possibly absent) for theoretical records; `rt` is the measured
retention time (possibly absent) and is ignored for theoretical records,
whose retention time is predicted on demand. -/
structure ReferenceRecord where
  name : String
  lipid_class : String
  carbon_number : Nat
  unsaturation : Nat
  fa_modifier : Option String
  adduct : String
  family : RecordFamily
  mz : ℚ
  ccs : Option ℚ
  rt : Option ℚ
deriving Repr, DecidableEq

/-- The descriptor carried by a reference record. -/
def ReferenceRecord.descriptor (r : ReferenceRecord) : LipidDescriptor :=
  ⟨r.lipid_class, r.carbon_number, r.unsaturation, r.fa_modifier, r.adduct⟩

/-- Modelled from the spec: the Property Predictor failure mode
`UnsupportedDescriptor` (spec section 4.2 and 7(c)). -/
inductive PredErr
  | unsupportedDescriptor
deriving Repr, DecidableEq

/-- Modelled from the spec: the immutable-after-load services the
identification run reads: the Reference Store snapshot and the Property
Predictor (spec sections 4.1, 4.2 and 9). -/
structure IdCtx where
  store : List ReferenceRecord
  predict_ccs : LipidDescriptor → Except PredErr ℚ
  predict_rt : LipidDescriptor → Except PredErr ℚ

/-- Modelled from the spec: the 8 named confidence levels (spec section
4.4 and the level table in the shipped API documentation). -/
inductive IdLevel
  | meas_mz_rt_ccs
  | theo_mz_rt_ccs
  | meas_mz_ccs
  | theo_mz_ccs
  | meas_mz_rt
  | theo_mz_rt
  | meas_mz
  | theo_mz
deriving Repr, DecidableEq

/-- Which record family a level searches. -/
def IdLevel.family : IdLevel → RecordFamily
  | .meas_mz_rt_ccs | .meas_mz_ccs | .meas_mz_rt | .meas_mz => .measured
  | .theo_mz_rt_ccs | .theo_mz_ccs | .theo_mz_rt | .theo_mz => .theoretical

/-- Whether retention time participates in a level's predicate. -/
def IdLevel.usesRt : IdLevel → Bool
  | .meas_mz_rt_ccs | .theo_mz_rt_ccs | .meas_mz_rt | .theo_mz_rt => true
  | _ => false

/-- Whether ccs participates in a level's predicate. -/
def IdLevel.usesCcs : IdLevel → Bool
  | .meas_mz_rt_ccs | .theo_mz_rt_ccs | .meas_mz_ccs | .theo_mz_ccs => true
  | _ => false

/-- The string tag a level is recorded under in result arrays. -/
def IdLevel.tag : IdLevel → String
  | .meas_mz_rt_ccs => "meas_mz_rt_ccs"
  | .theo_mz_rt_ccs => "theo_mz_rt_ccs"
  | .meas_mz_ccs => "meas_mz_ccs"
  | .theo_mz_ccs => "theo_mz_ccs"
  | .meas_mz_rt => "meas_mz_rt"
  | .theo_mz_rt => "theo_mz_rt"
  | .meas_mz => "meas_mz"
  | .theo_mz => "theo_mz"

/-- Modelled from the spec: the ccs value a record contributes to
matching: measured records use their measured ccs; theoretical records
use the stored predicted ccs when present and otherwise route through the
Property Predictor, a per-candidate failure degrading to no value (spec
sections 4.4 and 7(c)). -/
def effCcs (ctx : IdCtx) (r : ReferenceRecord) : Option ℚ :=
  match r.family with
  | .measured => r.ccs
  | .theoretical =>
    match r.ccs with
    | some c => some c
    | none => (ctx.predict_ccs r.descriptor).toOption

/-- Modelled from the spec: the retention time a record contributes to
matching: measured records use their stored rt (possibly absent);
theoretical records obtain a predicted rt on demand, a per-candidate
failure degrading to no value (spec section 3 and 7(c)). -/
def effRt (ctx : IdCtx) (r : ReferenceRecord) : Option ℚ :=
  match r.family with
  | .measured => r.rt
  | .theoretical => (ctx.predict_rt r.descriptor).toOption

/-- Absolute-units tolerance check used for mz and rt: all three of query
value, tolerance and record value must be present and `|q - v| ≤ t` (spec
section 4.1, inclusive bound). -/
def tolOk : Option ℚ → Option ℚ → Option ℚ → Bool
  | some q, some t, some v => decide (|q - v| ≤ t)
  | _, _, _ => false

/-- Percentage tolerance check used for ccs: the tolerance is a
percentage of the record's ccs value, `|q - v| ≤ t/100 * v` (spec section
4.1, inclusive bound, record-relative). -/
def ccsTolOk : Option ℚ → Option ℚ → Option ℚ → Bool
  | some q, some t, some v => decide (|q - v| ≤ t / 100 * v)
  | _, _, _ => false

/-- Modelled from the spec: whether one reference record matches a query
at a given level: family must agree, mz always participates, and rt and
ccs participate exactly when the level says so (spec section 4.1). -/
def recordMatches (ctx : IdCtx) (lvl : IdLevel) (qmz mz_tol : ℚ)
    (qrt rt_tol qccs ccs_tol_pct : Option ℚ) (r : ReferenceRecord) : Bool :=
  decide (r.family = lvl.family) && decide (|qmz - r.mz| ≤ mz_tol)
    && (!lvl.usesRt || tolOk qrt rt_tol (effRt ctx r))
    && (!lvl.usesCcs || ccsTolOk qccs ccs_tol_pct (effCcs ctx r))

/-- Modelled from the spec: a candidate's score, the sum of squared
per-field normalized deviations (`deviation/tolerance` per participating
field); this is the square of the recommended Euclidean composite of spec
section 4.4 and induces the same lower-is-better order. -/
def candScore (ctx : IdCtx) (lvl : IdLevel) (qmz mz_tol : ℚ)
    (qrt rt_tol qccs ccs_tol_pct : Option ℚ) (r : ReferenceRecord) : ℚ :=
  ((qmz - r.mz) / mz_tol) ^ 2
    + (if lvl.usesRt then
        ((qrt.getD 0 - (effRt ctx r).getD 0) / rt_tol.getD 1) ^ 2
      else 0)
    + (if lvl.usesCcs then
        (100 * (qccs.getD 0 - (effCcs ctx r).getD 0)
          / (ccs_tol_pct.getD 1 * (effCcs ctx r).getD 1)) ^ 2
      else 0)

/-- Ordering of scored candidates: lower score (better fit) first. -/
def scoreLE (a b : ReferenceRecord × ℚ) : Prop := a.2 ≤ b.2

instance : DecidableRel scoreLE := fun a b => inferInstanceAs (Decidable (a.2 ≤ b.2))

instance : IsTotal (ReferenceRecord × ℚ) scoreLE := ⟨fun a b => le_total a.2 b.2⟩

instance : IsTrans (ReferenceRecord × ℚ) scoreLE := ⟨fun _ _ _ => le_trans⟩

/-- Modelled from the spec: the Reference Store query (spec section 4.1):
select the records of the level's family that satisfy the level's
tolerance predicate, score each one, and return them best (lowest) score
first; no match yields the empty sequence, never an error. -/
def query (ctx : IdCtx) (lvl : IdLevel) (qmz mz_tol : ℚ)
    (qrt rt_tol qccs ccs_tol_pct : Option ℚ) : List (ReferenceRecord × ℚ) :=
  List.insertionSort scoreLE
    ((ctx.store.filter (recordMatches ctx lvl qmz mz_tol qrt rt_tol qccs ccs_tol_pct)).map
      (fun r => (r, candScore ctx lvl qmz mz_tol qrt rt_tol qccs ccs_tol_pct r)))

/-- Linear map through the segment from `p` to `q`, evaluated at `x`. -/
def interpSeg (p q : ℚ × ℚ) (x : ℚ) : ℚ :=
  p.2 + (x - p.1) * ((q.2 - p.2) / (q.1 - p.1))

/-- Modelled from the spec: `calibrate` evaluates the fitted mapping at an
arbitrary query retention time, using strategy (b) of spec section 4.3:
piecewise-linear interpolation between consecutive calibrant points, with
linear extrapolation beyond the first and last point using the nearest
segment's slope; total on all of ℚ. -/
def calibrate : List (ℚ × ℚ) → ℚ → ℚ
  | [], x => x
  | [p], _ => p.2
  | [p, q], x => interpSeg p q x
  | p :: q :: r :: rest, x =>
    if x ≤ q.1 then interpSeg p q x else calibrate (q :: r :: rest) x

/-- Total order used to sort calibrant pairs: ascending measured rt, ties
broken by input position (spec section 4.3). -/
def pairLE (a b : Nat × (ℚ × ℚ)) : Prop :=
  a.2.1 < b.2.1 ∨ (a.2.1 = b.2.1 ∧ a.1 ≤ b.1)

instance : DecidableRel pairLE := fun a b =>
  inferInstanceAs (Decidable (a.2.1 < b.2.1 ∨ (a.2.1 = b.2.1 ∧ a.1 ≤ b.1)))

instance : IsTotal (Nat × (ℚ × ℚ)) pairLE where
  total a b := by
    rcases lt_trichotomy a.2.1 b.2.1 with h | h | h
    · exact Or.inl (Or.inl h)
    · rcases Nat.le_total a.1 b.1 with h' | h'
      · exact Or.inl (Or.inr ⟨h, h'⟩)
      · exact Or.inr (Or.inr ⟨h.symm, h'⟩)
    · exact Or.inr (Or.inl h)

instance : IsTrans (Nat × (ℚ × ℚ)) pairLE where
  trans a b c hab hbc := by
    rcases hab with h1 | ⟨e1, i1⟩
    · rcases hbc with h2 | ⟨e2, _⟩
      · exact Or.inl (h1.trans h2)
      · exact Or.inl (e2 ▸ h1)
    · rcases hbc with h2 | ⟨e2, i2⟩
      · exact Or.inl (e1 ▸ h2)
      · exact Or.inr ⟨e1.trans e2, i1.trans i2⟩

/-- Modelled from the spec: `build` pairs the measured and reference
retention times and sorts the pairs by measured rt ascending, duplicates
retained and ties broken by input order (spec section 4.3). -/
def buildPairs (measured_rts reference_rts : List ℚ) : List (ℚ × ℚ) :=
  (List.insertionSort pairLE (measured_rts.zip reference_rts).enum).map Prod.snd

/-- Modelled from the spec: the calibration-call failure
`InsufficientCalibrants` (spec section 7(b)). -/
inductive CalError
  | insufficientCalibrants
deriving Repr, DecidableEq

/-- Modelled from the spec: a feature's `feat_ids` entry in the output:
either a list of putative identification names, or a single sentinel
string for an unidentified feature (shipped API documentation of
`Dataset.feat_ids`). -/
inductive FeatIds
  | ids (names : List String)
  | unid (sentinel : String)
deriving Repr, DecidableEq

/-- Modelled from the spec: the slice of the external `Dataset`
collaborator the identification engine reads and writes: the feature
labels, the attached retention-time calibration, and the three parallel
identification output arrays (spec sections 3 and 6; the missing Python
class lives in `lipydomics/data.py`). -/
structure Dataset where
  labels : List Feature
  rt_cal : Option (List (ℚ × ℚ))
  feat_ids : List FeatIds
  feat_id_levels : List String
  feat_id_scores : List (List ℚ)
deriving Repr, DecidableEq

/-- Modelled from the spec: `add_rt_calibration` builds a calibration map
from named calibrants and attaches it to the dataset, replacing any prior
calibration; it fails with `InsufficientCalibrants`, leaving the dataset
untouched, unless the lists are parallel with length at least 2 (spec
sections 4.3 and 7(b); the missing Python function lives in
`lipydomics/identification/rt_calibration.py`). -/
def add_rt_calibration (d : Dataset) (lipids : List String)
    (measured_rts reference_rts : List ℚ) : Dataset × Option CalError :=
  if lipids.length = measured_rts.length ∧ measured_rts.length = reference_rts.length
      ∧ 2 ≤ measured_rts.length then
    ({ d with rt_cal := some (buildPairs measured_rts reference_rts) }, none)
  else
    (d, some .insufficientCalibrants)

/-- The sentinel recorded for an unidentified feature; the documentation
fixes only that it is a single string, not its spelling. -/
def unidSentinel : String := "unknown"

/-- Query retention time actually compared against the store: the
calibrated value when a calibration is attached, the raw measured value
otherwise (spec section 4.3). -/
def calibratedRt (cal : Option (List (ℚ × ℚ))) (rt : ℚ) : ℚ :=
  match cal with
  | some ps => calibrate ps rt
  | none => rt

/-- The validated tolerance triple (mz absolute, rt absolute, ccs
percentage), spec section 6. -/
structure Tol where
  mz : ℚ
  rt : ℚ
  ccs_pct : ℚ
deriving Repr, DecidableEq

/-- Modelled from the spec: one feature's candidates at one level: a
level requiring rt (or ccs) is treated as no match for a feature lacking
rt (or ccs); otherwise the Reference Store is queried with the
(calibrated) retention time (spec sections 4.3 and 4.4). -/
def levelCandidates (ctx : IdCtx) (cal : Option (List (ℚ × ℚ))) (tol : Tol)
    (f : Feature) (lvl : IdLevel) : List (ReferenceRecord × ℚ) :=
  if lvl.usesRt && f.rt.isNone then []
  else if lvl.usesCcs && f.ccs.isNone then []
  else
    query ctx lvl f.mz tol.mz (f.rt.map (calibratedRt cal)) (some tol.rt)
      f.ccs (some tol.ccs_pct)

/-- Modelled from the spec: the cascade over an ordered list of levels:
the first level yielding at least one candidate wins and its tag is
recorded; exhausting the list yields the empty-candidate state tagged
with the unidentified sentinel (spec section 4.4). -/
def tryLevels (ctx : IdCtx) (cal : Option (List (ℚ × ℚ))) (tol : Tol)
    (f : Feature) : List IdLevel → List (ReferenceRecord × ℚ) × String
  | [] => ([], unidSentinel)
  | l :: ls =>
    let c := levelCandidates ctx cal tol f l
    if c.isEmpty then tryLevels ctx cal tol f ls else (c, l.tag)

/-- Modelled from the spec: the fixed priority order the `any` selector
expands to (spec section 4.4). -/
def anyOrder : List IdLevel :=
  [.meas_mz_rt_ccs, .theo_mz_rt_ccs, .meas_mz_ccs, .theo_mz_ccs,
   .meas_mz_rt, .theo_mz_rt, .meas_mz, .theo_mz]

/-- Modelled from the spec: the `level` argument of the orchestrator: one
level name, an ordered list of level names, or the sentinel `any` (spec
section 4.4 and the shipped API documentation). -/
inductive LevelArg
  | one (l : IdLevel)
  | seq (ls : List IdLevel)
  | any

/-- Resolution of the level argument into the ordered list of levels to
try (spec section 4.4). -/
def resolveLevels : LevelArg → List IdLevel
  | .one l => [l]
  | .seq ls => ls
  | .any => anyOrder

/-- Modelled from the spec: the tolerance argument as the Python caller
passes it: a Python list or a Python tuple of values; the documentation
insists "tol must be a list". -/
inductive PyTol
  | list (xs : List ℚ)
  | tuple (xs : List ℚ)

/-- Modelled from the spec: the fatal orchestrator-boundary rejections of
structurally invalid call parameters (spec section 7(d) and the "tol must
be a list" notes of the shipped documentation). -/
inductive IdError
  | toleranceNotList
  | malformedTolerance
  | emptyLevelList
deriving Repr, DecidableEq

/-- Modelled from the spec: validation of the tolerance argument at the
orchestrator boundary: it must be a Python list of exactly three
non-negative values (spec section 7(d); "tol must be a list"). -/
def validateTol : PyTol → Except IdError Tol
  | .tuple _ => .error .toleranceNotList
  | .list [a, b, c] =>
    if 0 ≤ a ∧ 0 ≤ b ∧ 0 ≤ c then .ok ⟨a, b, c⟩ else .error .malformedTolerance
  | .list _ => .error .malformedTolerance

/-- The `feat_ids` entry derived from one feature's candidate list. -/
def featEntry (c : List (ReferenceRecord × ℚ)) : FeatIds :=
  if c.isEmpty then .unid unidSentinel else .ids (c.map (fun p => p.1.name))

/-- Modelled from the spec: the per-feature identification pass over the
whole feature table (spec section 4.4). -/
def runIdentification (ctx : IdCtx) (cal : Option (List (ℚ × ℚ))) (tol : Tol)
    (levels : List IdLevel) (features : List Feature) :
    List (List (ReferenceRecord × ℚ) × String) :=
  features.map (fun f => tryLevels ctx cal tol f levels)

/-- Modelled from the spec: the public identification entry point
`add_feature_ids`: validate the call parameters at the boundary, run the
cascade over every feature, and overwrite the dataset's three
identification arrays in full (spec sections 4.4, 6 and 7; the missing
Python function lives in `lipydomics/identification/__init__.py`). -/
def add_feature_ids (ctx : IdCtx) (d : Dataset) (tol : PyTol) (level : LevelArg) :
    Except IdError Dataset :=
  match validateTol tol with
  | .error e => .error e
  | .ok t =>
    if (resolveLevels level).isEmpty then .error .emptyLevelList
    else
      .ok { d with
        feat_ids := (runIdentification ctx d.rt_cal t (resolveLevels level)
          d.labels).map (fun p => featEntry p.1),
        feat_id_levels := (runIdentification ctx d.rt_cal t (resolveLevels level)
          d.labels).map (fun p => p.2),
        feat_id_scores := (runIdentification ctx d.rt_cal t (resolveLevels level)
          d.labels).map (fun p => p.1.map (fun c => c.2)) }

/-- Modelled from the spec: of the batch plotting entry point
`batch_barplot_feature_bygroup` only the tolerance-argument acceptance is
modelled ("tolerance must be a list" in the shipped documentation);
plotting itself is out of the spec's scope (spec section 1). -/
def batch_barplot_feature_bygroup_accepts_tol : PyTol → Bool
  | .list _ => true
  | .tuple _ => false

/-! Supporting lemmas about the Reference Store query. -/

theorem tolOk_iff (q t v : Option ℚ) :
    tolOk q t v = true ↔
      ∃ a b c, q = some a ∧ t = some b ∧ v = some c ∧ |a - c| ≤ b := by
  cases q <;> cases t <;> cases v <;> simp [tolOk]

theorem ccsTolOk_iff (q t v : Option ℚ) :
    ccsTolOk q t v = true ↔
      ∃ a b c, q = some a ∧ t = some b ∧ v = some c ∧ |a - c| ≤ b / 100 * c := by
  cases q <;> cases t <;> cases v <;> simp [ccsTolOk]

theorem mem_query_iff (ctx : IdCtx) (lvl : IdLevel) (qmz mz_tol : ℚ)
    (qrt rt_tol qccs ccs_tol_pct : Option ℚ) (r : ReferenceRecord) (s : ℚ) :
    (r, s) ∈ query ctx lvl qmz mz_tol qrt rt_tol qccs ccs_tol_pct ↔
      r ∈ ctx.store ∧ recordMatches ctx lvl qmz mz_tol qrt rt_tol qccs ccs_tol_pct r = true
        ∧ s = candScore ctx lvl qmz mz_tol qrt rt_tol qccs ccs_tol_pct r := by
  unfold query
  rw [(List.perm_insertionSort scoreLE _).mem_iff]
  simp only [List.mem_map, List.mem_filter, Prod.mk.injEq]
  constructor
  · rintro ⟨a, ⟨ha, hm⟩, rfl, rfl⟩
    exact ⟨ha, hm, rfl⟩
  · rintro ⟨ha, hm, rfl⟩
    exact ⟨r, ⟨ha, hm⟩, rfl, rfl⟩

theorem recordMatches_iff (ctx : IdCtx) (lvl : IdLevel) (qmz mz_tol : ℚ)
    (qrt rt_tol qccs ccs_tol_pct : Option ℚ) (r : ReferenceRecord) :
    recordMatches ctx lvl qmz mz_tol qrt rt_tol qccs ccs_tol_pct r = true ↔
      r.family = lvl.family ∧ |qmz - r.mz| ≤ mz_tol ∧
        (lvl.usesRt = true → tolOk qrt rt_tol (effRt ctx r) = true) ∧
        (lvl.usesCcs = true → ccsTolOk qccs ccs_tol_pct (effCcs ctx r) = true) := by
  unfold recordMatches
  cases h1 : lvl.usesRt <;> cases h2 : lvl.usesCcs <;>
    simp [Bool.and_eq_true, decide_eq_true_iff] <;> tauto

/-- C1: for every feature, tolerance triple and level, a record is returned
by the Reference Store's query exactly when it is in the store, in the
level's family, and satisfies the level's matching predicate with
inclusive bounds: `|query_mz - record_mz| ≤ mz_tol` and
`|query_rt - record_rt| ≤ rt_tol` in absolute units, and
`|query_ccs - record_ccs| ≤ ccs_tol_pct/100 * record_ccs` where the
percentage is taken of the record's ccs value; a record exactly at a
tolerance boundary is therefore included and one beyond it by any
positive amount excluded. -/
theorem query_mem_iff_level_predicate (ctx : IdCtx) (lvl : IdLevel) (qmz mz_tol : ℚ)
    (qrt rt_tol qccs ccs_tol_pct : Option ℚ) (r : ReferenceRecord) :
    (∃ s, (r, s) ∈ query ctx lvl qmz mz_tol qrt rt_tol qccs ccs_tol_pct) ↔
      r ∈ ctx.store ∧ r.family = lvl.family ∧ |qmz - r.mz| ≤ mz_tol ∧
        (lvl.usesRt = true →
          ∃ q t v, qrt = some q ∧ rt_tol = some t ∧ effRt ctx r = some v ∧ |q - v| ≤ t) ∧
        (lvl.usesCcs = true →
          ∃ q t v, qccs = some q ∧ ccs_tol_pct = some t ∧ effCcs ctx r = some v ∧
            |q - v| ≤ t / 100 * v) := by
  constructor
  · rintro ⟨s, hs⟩
    obtain ⟨hstore, hm, -⟩ := (mem_query_iff ctx lvl qmz mz_tol qrt rt_tol qccs
      ccs_tol_pct r s).1 hs
    obtain ⟨hfam, hmz, hrt, hccs⟩ := (recordMatches_iff ctx lvl qmz mz_tol qrt rt_tol
      qccs ccs_tol_pct r).1 hm
    exact ⟨hstore, hfam, hmz,
      fun h => (tolOk_iff _ _ _).1 (hrt h),
      fun h => (ccsTolOk_iff _ _ _).1 (hccs h)⟩
  · rintro ⟨hstore, hfam, hmz, hrt, hccs⟩
    refine ⟨candScore ctx lvl qmz mz_tol qrt rt_tol qccs ccs_tol_pct r,
      (mem_query_iff ctx lvl qmz mz_tol qrt rt_tol qccs ccs_tol_pct r _).2
        ⟨hstore, ?_, rfl⟩⟩
    exact (recordMatches_iff ctx lvl qmz mz_tol qrt rt_tol qccs ccs_tol_pct r).2
      ⟨hfam, hmz, fun h => (tolOk_iff _ _ _).2 (hrt h),
        fun h => (ccsTolOk_iff _ _ _).2 (hccs h)⟩

/-! The cascade as a first-match search. -/

/-- The first-match description of the cascade, written from the spec's
words for comparison with the implementation-side `tryLevels`: the result
is the candidate set and tag of the first level in the list yielding at
least one candidate, and the empty-candidate state with the unidentified
sentinel when no level does. -/
def firstMatchResult (ctx : IdCtx) (cal : Option (List (ℚ × ℚ))) (tol : Tol)
    (f : Feature) (ls : List IdLevel) : List (ReferenceRecord × ℚ) × String :=
  match ls.find? (fun l => !(levelCandidates ctx cal tol f l).isEmpty) with
  | some l => (levelCandidates ctx cal tol f l, l.tag)
  | none => ([], unidSentinel)

theorem tryLevels_eq_firstMatch (ctx : IdCtx) (cal : Option (List (ℚ × ℚ)))
    (tol : Tol) (f : Feature) (ls : List IdLevel) :
    tryLevels ctx cal tol f ls = firstMatchResult ctx cal tol f ls := by
  induction ls with
  | nil => rfl
  | cons l ls ih =>
    unfold tryLevels firstMatchResult
    rw [List.find?_cons]
    cases hc : (levelCandidates ctx cal tol f l).isEmpty with
    | true => simpa [hc] using ih
    | false => simp [hc]

/-- C2: identification with level `any` is equivalent to trying the levels
in the fixed order meas_mz_rt_ccs, theo_mz_rt_ccs, meas_mz_ccs,
theo_mz_ccs, meas_mz_rt, theo_mz_rt, meas_mz, theo_mz and returning
exactly the candidate set, scores and tag of the first level yielding at
least one candidate, never continuing past it or merging lower-priority
levels; if every level yields no candidate the result is the
empty-candidate state tagged with the unidentified sentinel. -/
theorem any_level_cascade_first_match (ctx : IdCtx) (cal : Option (List (ℚ × ℚ)))
    (tol : Tol) (f : Feature) :
    tryLevels ctx cal tol f (resolveLevels LevelArg.any)
      = firstMatchResult ctx cal tol f
          [.meas_mz_rt_ccs, .theo_mz_rt_ccs, .meas_mz_ccs, .theo_mz_ccs,
           .meas_mz_rt, .theo_mz_rt, .meas_mz, .theo_mz] :=
  tryLevels_eq_firstMatch ctx cal tol f anyOrder

/-! Calibration is applied consistently before matching. -/

theorem levelCandidates_calibrated (ctx : IdCtx) (ps : List (ℚ × ℚ)) (tol : Tol)
    (f : Feature) (lvl : IdLevel) :
    levelCandidates ctx (some ps) tol f lvl
      = levelCandidates ctx none tol { f with rt := f.rt.map (calibrate ps) } lvl := by
  unfold levelCandidates
  cases f.rt <;> simp [calibratedRt]

/-- C3: with a retention-time calibration attached, identification
compares `calibrate(rt)` rather than the raw measured rt at every
matching level: running the cascade with a calibration is the same as
running it with no calibration on the feature whose rt has been replaced
by its calibrated value; with no calibration attached the raw rt is used
unchanged, which is not an error. -/
theorem calibrated_rt_used_at_rt_levels (ctx : IdCtx) (ps : List (ℚ × ℚ)) (tol : Tol)
    (f : Feature) (ls : List IdLevel) :
    tryLevels ctx (some ps) tol f ls
        = tryLevels ctx none tol { f with rt := f.rt.map (calibrate ps) } ls
      ∧ ∀ rt : ℚ, calibratedRt none rt = rt := by
  refine ⟨?_, fun _ => rfl⟩
  induction ls with
  | nil => rfl
  | cons l ls ih =>
    unfold tryLevels
    rw [levelCandidates_calibrated ctx ps tol f l, ih]

/-! Calibration-map lemmas. -/

theorem interpSeg_left (p q : ℚ × ℚ) : interpSeg p q p.1 = p.2 := by
  simp [interpSeg]

theorem interpSeg_right (p q : ℚ × ℚ) (h : p.1 ≠ q.1) : interpSeg p q q.1 = q.2 := by
  unfold interpSeg
  have hc : (q.1 - p.1) * ((q.2 - p.2) / (q.1 - p.1)) = q.2 - p.2 := by
    rw [mul_comm]
    exact div_mul_cancel₀ _ (sub_ne_zero.mpr (Ne.symm h))
  rw [hc]
  ring

theorem interpSeg_mono (p q : ℚ × ℚ) (h1 : p.1 < q.1) (h2 : p.2 ≤ q.2)
    {x y : ℚ} (hxy : x ≤ y) : interpSeg p q x ≤ interpSeg p q y := by
  unfold interpSeg
  have hs : (0 : ℚ) ≤ (q.2 - p.2) / (q.1 - p.1) :=
    div_nonneg (by linarith) (by linarith)
  have := mul_le_mul_of_nonneg_right (sub_le_sub_right hxy p.1) hs
  linarith

/-- Strictly increasing measured retention times between consecutive
calibrant pairs. -/
def measIncr (p q : ℚ × ℚ) : Prop := p.1 < q.1

instance : DecidableRel measIncr := fun p q =>
  inferInstanceAs (Decidable (p.1 < q.1))

/-- Valid calibration chain: measured rts strictly increasing and
reference rts non-decreasing between consecutive pairs. -/
def calChain (p q : ℚ × ℚ) : Prop := p.1 < q.1 ∧ p.2 ≤ q.2

instance : DecidableRel calChain := fun p q =>
  inferInstanceAs (Decidable (p.1 < q.1 ∧ p.2 ≤ q.2))

theorem calibrate_exact : ∀ ps : List (ℚ × ℚ), ps.Pairwise measIncr →
    ∀ m r, (m, r) ∈ ps → calibrate ps m = r := by
  intro ps
  induction ps with
  | nil => intro _ m r hm; cases hm
  | cons p tail ih =>
    intro h m r hm
    rcases List.pairwise_cons.1 h with ⟨hp, htail⟩
    cases tail with
    | nil =>
      have he := List.mem_singleton.1 hm
      subst he
      rfl
    | cons q rest =>
      have hpq : measIncr p q := hp q (List.mem_cons_self q rest)
      cases rest with
      | nil =>
        rcases List.mem_cons.1 hm with h1 | h2
        · subst h1
          exact interpSeg_left (m, r) q
        · have he := List.mem_singleton.1 h2
          subst he
          exact interpSeg_right p (m, r) (ne_of_lt hpq)
      | cons q' rest' =>
        rcases List.mem_cons.1 hm with h1 | h2
        · subst h1
          show calibrate ((m, r) :: q :: q' :: rest') m = r
          have : m ≤ q.1 := le_of_lt hpq
          simp only [calibrate, if_pos this]
          exact interpSeg_left (m, r) q
        · rcases List.pairwise_cons.1 htail with ⟨hq, -⟩
          rcases List.mem_cons.1 h2 with h3 | h4
          · subst h3
            show calibrate (p :: (m, r) :: q' :: rest') m = r
            simp only [calibrate, if_pos (le_refl m)]
            exact interpSeg_right p (m, r) (ne_of_lt hpq)
          · have hlt : q.1 < m := hq (m, r) h4
            show calibrate (p :: q :: q' :: rest') m = r
            simp only [calibrate, if_neg (not_le.mpr hlt)]
            exact ih htail m r h2

theorem calibrate_ge_head : ∀ (rest : List (ℚ × ℚ)) (q : ℚ × ℚ),
    (q :: rest).Pairwise calChain → ∀ x, q.1 ≤ x → q.2 ≤ calibrate (q :: rest) x := by
  intro rest
  induction rest with
  | nil => intro q _ x _; exact le_of_eq rfl
  | cons r rest' ih =>
    intro q h x hx
    rcases List.pairwise_cons.1 h with ⟨hq, htail⟩
    have hqr : calChain q r := hq r (List.mem_cons_self r rest')
    cases rest' with
    | nil =>
      have h1 : interpSeg q r q.1 ≤ interpSeg q r x := interpSeg_mono q r hqr.1 hqr.2 hx
      rw [interpSeg_left] at h1
      exact h1
    | cons r' rest'' =>
      by_cases hxr : x ≤ r.1
      · show q.2 ≤ calibrate (q :: r :: r' :: rest'') x
        simp only [calibrate, if_pos hxr]
        have h1 : interpSeg q r q.1 ≤ interpSeg q r x := interpSeg_mono q r hqr.1 hqr.2 hx
        rwa [interpSeg_left] at h1
      · show q.2 ≤ calibrate (q :: r :: r' :: rest'') x
        simp only [calibrate, if_neg hxr]
        exact le_trans hqr.2 (ih r htail x (le_of_lt (lt_of_not_le hxr)))

theorem calibrate_mono_cons : ∀ (rest : List (ℚ × ℚ)) (q : ℚ × ℚ),
    (q :: rest).Pairwise calChain → ∀ x y, x ≤ y →
      calibrate (q :: rest) x ≤ calibrate (q :: rest) y := by
  intro rest
  induction rest with
  | nil => intro q _ x y _; exact le_of_eq rfl
  | cons r rest' ih =>
    intro q h x y hxy
    rcases List.pairwise_cons.1 h with ⟨hq, htail⟩
    have hqr : calChain q r := hq r (List.mem_cons_self r rest')
    cases rest' with
    | nil => exact interpSeg_mono q r hqr.1 hqr.2 hxy
    | cons r' rest'' =>
      show calibrate (q :: r :: r' :: rest'') x ≤ calibrate (q :: r :: r' :: rest'') y
      by_cases hx : x ≤ r.1 <;> by_cases hy : y ≤ r.1
      · simp only [calibrate, if_pos hx, if_pos hy]
        exact interpSeg_mono q r hqr.1 hqr.2 hxy
      · simp only [calibrate, if_pos hx, if_neg hy]
        have h1 : interpSeg q r x ≤ r.2 := by
          have h2 := interpSeg_mono q r hqr.1 hqr.2 hx
          rwa [interpSeg_right q r (ne_of_lt hqr.1)] at h2
        exact le_trans h1 (calibrate_ge_head _ r htail y (le_of_lt (lt_of_not_le hy)))
      · exact absurd (hxy.trans hy) hx
      · simp only [calibrate, if_neg hx, if_neg hy]
        exact ih r htail x y hxy

theorem calibrate_mono (ps : List (ℚ × ℚ)) (h : ps.Pairwise calChain)
    {x y : ℚ} (hxy : x ≤ y) : calibrate ps x ≤ calibrate ps y := by
  cases ps with
  | nil => exact hxy
  | cons q rest => exact calibrate_mono_cons rest q h x y hxy

theorem buildPairs_perm (meas ref : List ℚ) :
    (buildPairs meas ref).Perm (meas.zip ref) := by
  unfold buildPairs
  have h1 := (List.perm_insertionSort pairLE (meas.zip ref).enum).map Prod.snd
  rwa [List.enum_map_snd] at h1

theorem buildPairs_sorted_fst (meas ref : List ℚ) :
    (buildPairs meas ref).Pairwise (fun p q => p.1 ≤ q.1) := by
  unfold buildPairs
  rw [List.pairwise_map]
  refine (List.sorted_insertionSort pairLE (meas.zip ref).enum).imp ?_
  intro a b hab
  rcases hab with h | ⟨h, -⟩
  · exact le_of_lt h
  · exact le_of_eq h

theorem buildPairs_strict (meas ref : List ℚ) (hlen : meas.length = ref.length)
    (hnd : meas.Nodup) : (buildPairs meas ref).Pairwise measIncr := by
  have h1 := buildPairs_sorted_fst meas ref
  have h2 : ((buildPairs meas ref).map Prod.fst).Nodup := by
    have hperm := (buildPairs_perm meas ref).map Prod.fst
    rw [List.map_fst_zip _ _ (le_of_eq hlen)] at hperm
    exact hperm.nodup_iff.2 hnd
  have h3 : (buildPairs meas ref).Pairwise (fun p q : ℚ × ℚ => p.1 ≠ q.1) :=
    List.pairwise_map.1 h2
  have h4 := List.Pairwise.and h1 h3
  exact h4.imp fun hab => lt_of_le_of_ne hab.1 hab.2

/-- C4 counterexample: with a duplicated measured calibrant rt (pairs
(1,0) and (1,1)) the calibrant lists are parallel and of length 2, the
pair (1,1) is among the calibrants, yet the built map sends 1 to 0, not
to 1, so exactness at every calibrant pair fails as universally stated. -/
theorem calibrate_exact_fails_on_duplicate_calibrants :
    ((1 : ℚ), (1 : ℚ)) ∈ ([(1 : ℚ), 1].zip [(0 : ℚ), 1])
      ∧ ([(1 : ℚ), 1] : List ℚ).length = ([(0 : ℚ), 1] : List ℚ).length
      ∧ 2 ≤ ([(1 : ℚ), 1] : List ℚ).length
      ∧ calibrate (buildPairs [(1 : ℚ), 1] [(0 : ℚ), 1]) 1 ≠ 1 := by
  have hb : buildPairs [(1 : ℚ), 1] [(0 : ℚ), 1]
      = [((1 : ℚ), (0 : ℚ)), ((1 : ℚ), (1 : ℚ))] := by
    norm_num [buildPairs, List.insertionSort, List.orderedInsert, pairLE,
      List.enum, List.enumFrom]
  refine ⟨by simp, rfl, by norm_num, ?_⟩
  rw [hb]
  norm_num [calibrate, interpSeg]

/-- C4 (amended): for every calibrant set with pairwise-distinct measured
rts and parallel lists, the built map is exact at every calibrant pair:
`calibrate (build meas ref) m_i = r_i` (exactly, over ℚ); in particular
the spec scenario `calibrate(2.843) = 4.393` holds, see the witness. -/
theorem calibrate_exact_at_calibrants (meas ref : List ℚ) (m r : ℚ)
    (hlen : meas.length = ref.length) (hnd : meas.Nodup)
    (hmem : (m, r) ∈ meas.zip ref) :
    calibrate (buildPairs meas ref) m = r :=
  calibrate_exact _ (buildPairs_strict meas ref hlen hnd) m r
    ((buildPairs_perm meas ref).mem_iff.2 hmem)

/-- Witness for C4: the spec's end-to-end calibrant set maps 2.843 to
exactly 4.393. -/
theorem calibrate_exact_at_calibrants_witness :
    calibrate (buildPairs [(0.673 : ℚ), 1.549, 2.843, 3.996]
      [(0.673 : ℚ), 1.549, 4.393, 7.252]) 2.843 = 4.393 :=
  calibrate_exact_at_calibrants _ _ _ _ rfl
    (by norm_num [List.nodup_cons]) (by simp [List.zip])

/-- C5 counterexample: the map built from measured rts [0, 1] and
reference rts [1, 0] (decreasing) is not monotone: 0 < 1 yet
calibrate(0) > calibrate(1), so monotonicity of every built map fails as
universally stated. -/
theorem calibrate_not_monotone_counterexample :
    (0 : ℚ) < 1
      ∧ ¬ (calibrate (buildPairs [(0 : ℚ), 1] [(1 : ℚ), 0]) 0
            ≤ calibrate (buildPairs [(0 : ℚ), 1] [(1 : ℚ), 0]) 1) := by
  have hb : buildPairs [(0 : ℚ), 1] [(1 : ℚ), 0]
      = [((0 : ℚ), (1 : ℚ)), ((1 : ℚ), (0 : ℚ))] := by
    norm_num [buildPairs, List.insertionSort, List.orderedInsert, pairLE,
      List.enum, List.enumFrom]
  refine ⟨by norm_num, ?_⟩
  rw [hb]
  norm_num [calibrate, interpSeg]

/-- C5 (amended): for every built map satisfying the spec's validity
condition — consecutive sorted calibrant pairs have strictly increasing
measured rts and non-decreasing reference rts — `calibrate` is monotone
non-decreasing on every pair of query retention times (it is total on all
of ℚ by construction, extrapolating beyond the calibrant range); in
particular this holds at all calibrant points. -/
theorem calibrate_monotone_of_chain (meas ref : List ℚ) (x y : ℚ)
    (hchain : (buildPairs meas ref).Pairwise calChain) (hxy : x ≤ y) :
    calibrate (buildPairs meas ref) x ≤ calibrate (buildPairs meas ref) y :=
  calibrate_mono _ hchain hxy

/-- Witness for C5: on the spec's calibrant set, calibrate(2) ≤
calibrate(2.843). -/
theorem calibrate_monotone_of_chain_witness :
    calibrate (buildPairs [(0.673 : ℚ), 1.549, 2.843, 3.996]
        [(0.673 : ℚ), 1.549, 4.393, 7.252]) 2
      ≤ calibrate (buildPairs [(0.673 : ℚ), 1.549, 2.843, 3.996]
          [(0.673 : ℚ), 1.549, 4.393, 7.252]) 2.843 :=
  calibrate_monotone_of_chain _ _ _ _
    (by
      have hb : buildPairs [(0.673 : ℚ), 1.549, 2.843, 3.996]
          [(0.673 : ℚ), 1.549, 4.393, 7.252]
          = [((0.673 : ℚ), (0.673 : ℚ)), ((1.549 : ℚ), (1.549 : ℚ)),
             ((2.843 : ℚ), (4.393 : ℚ)), ((3.996 : ℚ), (7.252 : ℚ))] := by
        norm_num [buildPairs, List.insertionSort, List.orderedInsert, pairLE,
          List.enum, List.enumFrom]
      rw [hb]
      norm_num [List.pairwise_cons, List.forall_mem_cons, calChain])
    (by norm_num)

/-- C6: whenever the measured and reference lists are not parallel lists
of length at least 2, the calibration call fails with
`InsufficientCalibrants`, the failure is surfaced to the caller, and the
dataset — in particular any previously attached calibration — is left
unchanged. -/
theorem add_rt_calibration_insufficient (d : Dataset) (lipids : List String)
    (meas ref : List ℚ)
    (h : ¬ (meas.length = ref.length ∧ 2 ≤ meas.length)) :
    add_rt_calibration d lipids meas ref = (d, some CalError.insufficientCalibrants) := by
  unfold add_rt_calibration
  exact if_neg fun hc => h ⟨hc.2.1, hc.2.2⟩

/-- Witness for C6: a one-point calibration on a dataset with a prior
calibration attached fails and leaves the prior calibration in place. -/
theorem add_rt_calibration_insufficient_witness :
    add_rt_calibration ⟨[], some [((1 : ℚ), (2 : ℚ))], [], [], []⟩ ["a"] [(1 : ℚ)] [(3 : ℚ)]
      = (⟨[], some [((1 : ℚ), (2 : ℚ))], [], [], []⟩, some CalError.insufficientCalibrants) :=
  add_rt_calibration_insufficient _ _ _ _ (by norm_num)

/-! The cascade always terminates with a complete, well-formed result. -/

theorem tryLevels_cons (ctx : IdCtx) (cal : Option (List (ℚ × ℚ))) (tol : Tol)
    (f : Feature) (l : IdLevel) (ls : List IdLevel) :
    tryLevels ctx cal tol f (l :: ls)
      = if (levelCandidates ctx cal tol f l).isEmpty then tryLevels ctx cal tol f ls
        else (levelCandidates ctx cal tol f l, l.tag) := rfl

theorem tryLevels_cases (ctx : IdCtx) (cal : Option (List (ℚ × ℚ))) (tol : Tol)
    (f : Feature) : ∀ ls : List IdLevel,
    ((tryLevels ctx cal tol f ls).1 = [] ∧ (tryLevels ctx cal tol f ls).2 = unidSentinel)
      ∨ ((tryLevels ctx cal tol f ls).1 ≠ [] ∧ ∃ l ∈ ls,
          (tryLevels ctx cal tol f ls).1 = levelCandidates ctx cal tol f l
            ∧ (tryLevels ctx cal tol f ls).2 = l.tag) := by
  intro ls
  induction ls with
  | nil => exact Or.inl ⟨rfl, rfl⟩
  | cons l ls ih =>
    rw [tryLevels_cons]
    cases hc : (levelCandidates ctx cal tol f l).isEmpty with
    | true =>
      rw [if_pos rfl]
      rcases ih with h | ⟨h1, l', hl', h2, h3⟩
      · exact Or.inl h
      · exact Or.inr ⟨h1, l', List.mem_cons_of_mem l hl', h2, h3⟩
    | false =>
      rw [if_neg (by simp)]
      exact Or.inr ⟨List.isEmpty_eq_false.1 hc, l, List.mem_cons_self l ls, rfl, rfl⟩

/-- C7: an identification run is total and complete: the result list has
exactly one entry per feature and every entry is either a nonempty
candidate list tagged with one of the attempted levels or the
empty-candidate state tagged with the unidentified sentinel; a level
requiring rt (resp. ccs) is treated as no match, not an error, for a
feature lacking rt (resp. ccs); and an `UnsupportedDescriptor` failure
while predicting ccs for one theoretical candidate degrades to no value
for that candidate only, never aborting the run. -/
theorem identification_total_and_degrades (ctx : IdCtx) (cal : Option (List (ℚ × ℚ)))
    (tol : Tol) (ls : List IdLevel) (features : List Feature) :
    (runIdentification ctx cal tol ls features).length = features.length
      ∧ (∀ res ∈ runIdentification ctx cal tol ls features,
          (res.1 = [] ∧ res.2 = unidSentinel)
            ∨ (res.1 ≠ [] ∧ ∃ l ∈ ls, res.2 = l.tag))
      ∧ (∀ (f : Feature) (lvl : IdLevel), lvl.usesRt = true → f.rt = none →
          levelCandidates ctx cal tol f lvl = [])
      ∧ (∀ (f : Feature) (lvl : IdLevel), lvl.usesCcs = true → f.ccs = none →
          levelCandidates ctx cal tol f lvl = [])
      ∧ (∀ r : ReferenceRecord, r.family = RecordFamily.theoretical → r.ccs = none →
          ctx.predict_ccs r.descriptor = Except.error PredErr.unsupportedDescriptor →
          effCcs ctx r = none) := by
  refine ⟨by simp [runIdentification], ?_, ?_, ?_, ?_⟩
  · intro res hres
    obtain ⟨f, -, rfl⟩ := List.mem_map.1 hres
    rcases tryLevels_cases ctx cal tol f ls with h | ⟨h1, l, hl, -, h3⟩
    · exact Or.inl h
    · exact Or.inr ⟨h1, l, hl, h3⟩
  · intro f lvl h1 h2
    simp [levelCandidates, h1, h2]
  · intro f lvl h1 h2
    by_cases hrt : lvl.usesRt && f.rt.isNone
    · simp [levelCandidates, hrt]
    · simp [levelCandidates, hrt, h1, h2]
  · intro r h1 h2 h3
    simp [effCcs, h1, h2, h3, Except.toOption]

/-! Output shape: replacement in full, parallel arrays, score order. -/

theorem add_feature_ids_ok_iff (ctx : IdCtx) (d : Dataset) (tol : PyTol)
    (lvl : LevelArg) (d₁ : Dataset) :
    add_feature_ids ctx d tol lvl = Except.ok d₁ ↔
      ∃ t, validateTol tol = Except.ok t ∧ resolveLevels lvl ≠ [] ∧
        d₁ = { d with
          feat_ids := (runIdentification ctx d.rt_cal t (resolveLevels lvl) d.labels).map
            (fun p => featEntry p.1),
          feat_id_levels := (runIdentification ctx d.rt_cal t (resolveLevels lvl)
            d.labels).map (fun p => p.2),
          feat_id_scores := (runIdentification ctx d.rt_cal t (resolveLevels lvl)
            d.labels).map (fun p => p.1.map fun c => c.2) } := by
  unfold add_feature_ids
  cases h : validateTol tol with
  | error e => simp [h]
  | ok t =>
    simp only [h]
    by_cases hls : (resolveLevels lvl).isEmpty
    · rw [if_pos hls]
      simp [List.isEmpty_eq_true.1 hls]
    · rw [if_neg hls]
      rw [List.isEmpty_eq_true] at hls
      simp only [Except.ok.injEq]
      constructor
      · rintro rfl
        exact ⟨t, rfl, hls, rfl⟩
      · rintro ⟨t', ht', -, rfl⟩
        cases ht'
        rfl

/-- C8: a second identification call replaces every feature's prior
result in full: the identification output depends only on the feature
labels and attached calibration, never on previously stored ids, levels
or scores (no merging or appending), and re-running on the produced
dataset with the same inputs reproduces it identically. -/
theorem add_feature_ids_overwrites (ctx : IdCtx) (d d' : Dataset) (tol : PyTol)
    (lvl : LevelArg) (hlab : d.labels = d'.labels) (hcal : d.rt_cal = d'.rt_cal) :
    ((add_feature_ids ctx d tol lvl).map
        fun x => (x.feat_ids, x.feat_id_levels, x.feat_id_scores))
        = ((add_feature_ids ctx d' tol lvl).map
            fun x => (x.feat_ids, x.feat_id_levels, x.feat_id_scores))
      ∧ ∀ d₁, add_feature_ids ctx d tol lvl = Except.ok d₁ →
          add_feature_ids ctx d₁ tol lvl = Except.ok d₁ := by
  constructor
  · unfold add_feature_ids
    cases h : validateTol tol with
    | error e => simp [h]
    | ok t =>
      simp only [h]
      by_cases hls : (resolveLevels lvl).isEmpty
      · rw [if_pos hls, if_pos hls]
      · rw [if_neg hls, if_neg hls]
        simp [hlab, hcal]
  · intro d₁ h
    obtain ⟨t, ht, hne, rfl⟩ := (add_feature_ids_ok_iff ctx d tol lvl d₁).1 h
    exact (add_feature_ids_ok_iff ctx _ tol lvl _).2 ⟨t, ht, hne, rfl⟩

theorem query_scores_sorted (ctx : IdCtx) (lvl : IdLevel) (qmz mz_tol : ℚ)
    (qrt rt_tol qccs ccs_tol_pct : Option ℚ) :
    ((query ctx lvl qmz mz_tol qrt rt_tol qccs ccs_tol_pct).map
      (fun p => p.2)).Sorted (· ≤ ·) := by
  unfold query
  rw [List.Sorted, List.pairwise_map]
  exact List.sorted_insertionSort scoreLE _

theorem levelCandidates_scores_sorted (ctx : IdCtx) (cal : Option (List (ℚ × ℚ)))
    (tol : Tol) (f : Feature) (lvl : IdLevel) :
    ((levelCandidates ctx cal tol f lvl).map (fun p => p.2)).Sorted (· ≤ ·) := by
  unfold levelCandidates
  split
  · simp
  · split
    · simp
    · exact query_scores_sorted ctx lvl f.mz tol.mz _ _ f.ccs _

theorem tryLevels_scores_sorted (ctx : IdCtx) (cal : Option (List (ℚ × ℚ)))
    (tol : Tol) (f : Feature) (ls : List IdLevel) :
    (((tryLevels ctx cal tol f ls).1).map (fun p => p.2)).Sorted (· ≤ ·) := by
  rcases tryLevels_cases ctx cal tol f ls with h | ⟨-, l, -, h2, -⟩
  · rw [h.1]; simp
  · rw [h2]; exact levelCandidates_scores_sorted ctx cal tol f l

/-- C9: after an identification run the three output arrays are parallel
with exactly one entry per feature; an identified feature's `feat_ids`
entry is a nonempty list of putative identification names in descending
order of confidence (its parallel score list is non-decreasing, lower
score = better fit) with a score list of the same length, while an
unidentified feature's entry is the single sentinel string — not an empty
list — with an empty score list. -/
theorem feature_id_arrays_parallel (ctx : IdCtx) (d : Dataset) (tol : PyTol)
    (lvl : LevelArg) (d₁ : Dataset) (h : add_feature_ids ctx d tol lvl = Except.ok d₁) :
    d₁.feat_ids.length = d.labels.length
      ∧ d₁.feat_id_levels.length = d.labels.length
      ∧ d₁.feat_id_scores.length = d.labels.length
      ∧ ∀ pr ∈ d₁.feat_ids.zip d₁.feat_id_scores,
          (∃ names, pr.1 = FeatIds.ids names ∧ names ≠ []
              ∧ names.length = pr.2.length ∧ pr.2.Sorted (· ≤ ·))
            ∨ (pr.1 = FeatIds.unid unidSentinel ∧ pr.2 = []) := by
  obtain ⟨t, -, -, rfl⟩ := (add_feature_ids_ok_iff ctx d tol lvl d₁).1 h
  refine ⟨by simp [runIdentification], by simp [runIdentification],
    by simp [runIdentification], ?_⟩
  intro pr hpr
  rw [List.zip_map'] at hpr
  obtain ⟨x, hx, rfl⟩ := List.mem_map.1 hpr
  by_cases hempty : x.1 = []
  · right
    simp [featEntry, hempty]
  · left
    refine ⟨x.1.map (fun p => p.1.name), ?_, by simpa using hempty, by simp, ?_⟩
    · simp [featEntry, hempty]
    · obtain ⟨f, -, rfl⟩ := List.mem_map.1 hx
      exact tryLevels_scores_sorted ctx d.rt_cal t f (resolveLevels lvl)

/-- C10: the identification entry point `add_feature_ids` and the batch
plotting entry point taking the same tolerance parameter require the
tolerance triple to be a Python list: every tuple-shaped tolerance is
rejected (in particular a tuple of perfectly valid values), and a
list-shaped tolerance passes the list check. -/
theorem tolerance_must_be_list :
    (∀ (ctx : IdCtx) (d : Dataset) (xs : List ℚ) (lvl : LevelArg),
        add_feature_ids ctx d (PyTol.tuple xs) lvl = Except.error IdError.toleranceNotList)
      ∧ (∀ xs : List ℚ, batch_barplot_feature_bygroup_accepts_tol (PyTol.tuple xs) = false)
      ∧ (∀ xs : List ℚ, batch_barplot_feature_bygroup_accepts_tol (PyTol.list xs) = true) :=
  ⟨fun _ _ _ _ => rfl, fun _ => rfl, fun _ => rfl⟩

/-! Concrete fixtures used by the witnesses below. -/

/-- A predictor with no trained slot for any descriptor. -/
def noPredict : LipidDescriptor → Except PredErr ℚ := fun _ => .error .unsupportedDescriptor

/-- A context holding an empty Reference Store snapshot. -/
def ctx0 : IdCtx := ⟨[], noPredict, noPredict⟩

/-- A dataset with no features and no prior identification state. -/
def dset0 : Dataset := ⟨[], none, [], [], []⟩

/-- The same dataset carrying stale identification results. -/
def dset0' : Dataset := ⟨[], none, [FeatIds.unid "stale"], ["stale"], [[5]]⟩

/-- Witness for C8: on two datasets equal except for stale prior results,
identification outputs coincide. -/
theorem add_feature_ids_overwrites_witness :
    ((add_feature_ids ctx0 dset0 (PyTol.list [0, 0, 0]) LevelArg.any).map
        fun x => (x.feat_ids, x.feat_id_levels, x.feat_id_scores))
      = ((add_feature_ids ctx0 dset0' (PyTol.list [0, 0, 0]) LevelArg.any).map
          fun x => (x.feat_ids, x.feat_id_levels, x.feat_id_scores)) :=
  (add_feature_ids_overwrites ctx0 dset0 dset0' (PyTol.list [0, 0, 0])
    LevelArg.any rfl rfl).1

/-- Witness for C9: a successful run on the empty dataset produces one
`feat_ids` entry per feature. -/
theorem feature_id_arrays_parallel_witness :
    dset0.feat_ids.length = dset0.labels.length :=
  (feature_id_arrays_parallel ctx0 dset0 (PyTol.list [0, 0, 0]) LevelArg.any dset0
    (by simp [add_feature_ids, validateTol, runIdentification, resolveLevels,
      anyOrder, dset0, ctx0])).1

end Lipydomics
